import Mathlib

/-!
Verification development for the bmux TCP multiplexing framework.

Shallow embedding of the Go sources:
* `parsing/parse.go` — envelope framing (`ParseEnvelope`), packet writing
  (`WritePacket`), protobuf message-id extraction (`ParseHeader`).
* `bmux.go` — route/middleware compilation (`registerRoutes`) and the
  per-connection read–decode–dispatch loop (`handleConnection`).
* `pkg/engine` (reactor model) — `OnOpen`/`OnClose` connection admission.
* `bmux.go` `acceptLoop` — semaphore-guarded blocking admission.

Bytes are modelled as `Nat` (with explicit `% 256` / `% 65536` where the Go
code performs a narrowing conversion); streams are `List Nat`; fallible
operations return `Option` or `Except`.
-/

namespace Bmux

/-- A framed packet as produced by `parsing.ParseEnvelope`:
`HeadLen` (0–255), `BodyLen` (0–65535), and the raw header/body bytes. -/
structure PacketEnvelope where
  HeadLen : Nat
  BodyLen : Nat
  RawHead : List Nat
  RawBody : List Nat
deriving Repr, DecidableEq

/-- The semantics of `io.ReadFull conn buf` on a byte stream: read exactly
`n` bytes, failing if the stream is shorter (short read / EOF). -/
def readFull (n : Nat) (s : List Nat) : Option (List Nat × List Nat) :=
  if n ≤ s.length then some (s.take n, s.drop n) else none

/-- Go `binary.LittleEndian.Uint16 b` for the two bytes `b0, b1`. -/
def leUint16 (b0 b1 : Nat) : Nat := b0 + 256 * b1

/-- Go `binary.LittleEndian.PutUint16` of a `uint16` value. -/
def putUint16LE (v : Nat) : List Nat := [v % 256, v / 256 % 256]

/-- Embedding of `parsing.ParseEnvelope` (parse.go): read a 3-byte prefix
(byte 0 = header length, bytes 1–2 = body length, little-endian), then read
exactly that many header bytes and body bytes.  Returns the envelope and the
unconsumed remainder of the stream, or `none` on a short read. -/
def ParseEnvelope (s : List Nat) : Option (PacketEnvelope × List Nat) :=
  match s with
  | b0 :: b1 :: b2 :: rest =>
    let headLen := b0
    let bodyLen := leUint16 b1 b2
    match readFull headLen rest with
    | none => none
    | some (rawHead, rest1) =>
      match readFull bodyLen rest1 with
      | none => none
      | some (rawBody, rest2) =>
        some (⟨headLen, bodyLen, rawHead, rawBody⟩, rest2)
  | _ => none

/-- The packet bytes built by `parsing.WritePacket`:
`[headLen:1][bodyLen:2, little-endian][head][body]`.  The Go code narrows
the lengths with `byte(...)` and `uint16(...)`, hence the `%`. -/
def packetBytes (headBytes bodyBytes : List Nat) : List Nat :=
  headBytes.length % 256 :: putUint16LE (bodyBytes.length % 65536) ++ headBytes ++ bodyBytes

/-- Embedding of `parsing.WritePacket` (parse.go).  The header and body
arguments stand for the protobuf-marshalled bytes (`none` = a nil message,
which contributes zero bytes).  `written` is the byte log of the connection;
on success the whole packet is appended in a single write, on failure the
log is returned unchanged together with the error. -/
def WritePacket (written : List Nat) (header body : Option (List Nat)) :
    List Nat × Option String :=
  match header with
  | some headBytes =>
    if 255 < headBytes.length then
      (written, some "header too large to encode (max 255 bytes)")
    else
      match body with
      | some bodyBytes =>
        if 65535 < bodyBytes.length then
          (written, some "body too large to encode (max 65535 bytes)")
        else
          (written ++ packetBytes headBytes bodyBytes, none)
      | none => (written ++ packetBytes headBytes [], none)
  | none =>
    match body with
    | some bodyBytes =>
      if 65535 < bodyBytes.length then
        (written, some "body too large to encode (max 65535 bytes)")
      else
        (written ++ packetBytes [] bodyBytes, none)
    | none => (written ++ packetBytes [] [], none)

/-- Reading exactly the length of a prefix returns that prefix and the rest. -/
theorem readFull_exact (l r : List Nat) : readFull l.length (l ++ r) = some (l, r) := by
  simp [readFull]

/-- Encoding a value `≤ 65535` as two little-endian bytes and decoding them
recovers the value. -/
theorem leUint16_recompose (v : Nat) (h : v ≤ 65535) :
    leUint16 (v % 256) (v / 256 % 256) = v := by
  unfold leUint16
  have hdiv : v / 256 % 256 = v / 256 := Nat.mod_eq_of_lt (by omega)
  rw [hdiv]
  omega

/-- Parsing a well-sized packet recovers the header and body exactly,
leaving the rest of the stream untouched. -/
theorem ParseEnvelope_packetBytes (head body rest : List Nat)
    (hh : head.length ≤ 255) (hb : body.length ≤ 65535) :
    ParseEnvelope (packetBytes head body ++ rest) =
      some (⟨head.length, body.length, head, body⟩, rest) := by
  have hhm : head.length % 256 = head.length := Nat.mod_eq_of_lt (by omega)
  have hbm : body.length % 65536 = body.length := Nat.mod_eq_of_lt (by omega)
  simp only [packetBytes, putUint16LE, hhm, hbm, List.cons_append, List.append_assoc]
  unfold ParseEnvelope
  simp only [List.nil_append]
  rw [readFull_exact head (body ++ rest)]
  simp only [leUint16_recompose body.length hb]
  simp [readFull_exact body rest]

/-- C1.  Frame round-trip: for every header byte string of length `≤ 255`
and body byte string of length `≤ 65535`, `WritePacket` succeeds, appends
exactly the packet `[headLen:1][bodyLen:2 LE][head][body]` to the
connection, and `ParseEnvelope` on that byte stream (followed by any
remainder) returns an envelope whose `RawHead`/`RawBody` are byte-identical
to what was written and whose `HeadLen`/`BodyLen` equal the two lengths. -/
theorem frame_roundtrip (head body rest written : List Nat)
    (hh : head.length ≤ 255) (hb : body.length ≤ 65535) :
    WritePacket written (some head) (some body) =
      (written ++ packetBytes head body, none) ∧
    ParseEnvelope (packetBytes head body ++ rest) =
      some (⟨head.length, body.length, head, body⟩, rest) := by
  constructor
  · simp only [WritePacket]
    rw [if_neg (by omega), if_neg (by omega)]
  · exact ParseEnvelope_packetBytes head body rest hh hb

/-- Witness for C1 at a concrete header `[9]`, body `[7, 8]` and trailing
stream `[5]`. -/
theorem frame_roundtrip_witness :
    ([9].length ≤ 255 ∧ [7, 8].length ≤ 65535) ∧
    WritePacket [] (some [9]) (some [7, 8]) = ([] ++ packetBytes [9] [7, 8], none) ∧
    ParseEnvelope (packetBytes [9] [7, 8] ++ [5]) =
      some (⟨[9].length, [7, 8].length, [9], [7, 8]⟩, [5]) := by
  refine ⟨⟨by decide, by decide⟩, ?_⟩
  exact frame_roundtrip [9] [7, 8] [5] [] (by decide) (by decide)

/-- C6.  Oversized-write rejection with atomicity: a marshalled header
longer than 255 bytes, or a marshalled body longer than 65535 bytes, makes
`WritePacket` return an error with the connection's byte log unchanged —
no bytes are written before the failure. -/
theorem writePacket_oversized_atomic (written headBytes bodyBytes : List Nat) :
    (255 < headBytes.length →
      WritePacket written (some headBytes) (some bodyBytes) =
        (written, some "header too large to encode (max 255 bytes)")) ∧
    (65535 < bodyBytes.length →
      WritePacket written (some headBytes) (some bodyBytes) =
        (written, some "body too large to encode (max 65535 bytes)") ∨
      WritePacket written (some headBytes) (some bodyBytes) =
        (written, some "header too large to encode (max 255 bytes)")) := by
  constructor
  · intro h
    simp only [WritePacket]
    rw [if_pos h]
  · intro h
    simp only [WritePacket]
    by_cases hh : 255 < headBytes.length
    · right; rw [if_pos hh]
    · left; rw [if_neg hh, if_pos h]

/-- Witness for C6: a 256-byte header is rejected with nothing written, and
a 65536-byte body is rejected with nothing written. -/
theorem writePacket_oversized_atomic_witness :
    WritePacket [1] (some (List.replicate 256 0)) (some []) =
      ([1], some "header too large to encode (max 255 bytes)") ∧
    (WritePacket [1] (some []) (some (List.replicate 65536 0)) =
      ([1], some "body too large to encode (max 65535 bytes)") ∨
     WritePacket [1] (some []) (some (List.replicate 65536 0)) =
      ([1], some "header too large to encode (max 255 bytes)")) := by
  constructor
  · exact (writePacket_oversized_atomic [1] (List.replicate 256 0) []).1
      (by rw [List.length_replicate]; omega)
  · exact (writePacket_oversized_atomic [1] [] (List.replicate 65536 0)).2
      (by rw [List.length_replicate]; omega)

/-- Handlers are modelled as transformers of an ordered event log: the Go
`router.HandlerFunc` runs for its side effects, and the observable we track
is the ordered list of names appended by middleware and base handlers. -/
abbrev Handler := List String → List String

/-- Embedding of `middleware.Middleware` (global middleware entries held in
`Server.middlewares`): a handler transform plus name/status/experimental
metadata. -/
structure MwEntry where
  method : Handler → Handler
  name : String
  status : Bool
  experimental : Bool

/-- Embedding of a `router.Route` (router/local.go): id, name, enabled
flag, experimental flag, base handler, and route-level middleware. -/
structure Route where
  id : Int
  name : String
  status : Bool
  experimental : Bool
  handler : Handler
  middleware : List (Handler → Handler)

/-- Embedding of a `router.Router` (router/local.go): enabled flag, ordered
routes, and router-level middleware. -/
structure Router where
  status : Bool
  routes : List Route
  middleware : List (Handler → Handler)

/-- The configuration values `registerRoutes` can observe
(`config.Experimental()` and `config.EnablePacketLogging()`). -/
structure Config where
  experimental : Bool
  enablePacketLogging : Bool

/-- Embedding of `middleware.NewLoggingMiddleware` (middleware/public.go):
it injects a logger into the per-message context and calls `next`; in the
event-log model it appends nothing. -/
def loggingMiddleware : Handler → Handler := fun next => next

/-- The handler composition performed inside `registerRoutes` (bmux.go
lines 102–124) for one route: route-level middleware is applied first
(innermost, reverse index order), then router-level middleware, then global
middleware (each entry skipped when its status is off), and finally the
packet-logging middleware outermost when enabled. -/
def composeHandler (cfg : Config) (gmw : List MwEntry)
    (routerMw : List (Handler → Handler)) (r : Route) : Handler :=
  let h1 := r.middleware.foldr (fun m h => m h) r.handler
  let h2 := routerMw.foldr (fun m h => m h) h1
  let h3 := gmw.foldr (fun m h => if m.status then m.method h else h) h2
  if cfg.enablePacketLogging then loggingMiddleware h3 else h3

/-- Embedding of `Server.registerRoutes` (bmux.go lines 91–138): iterate
routers in order, skipping disabled routers; iterate routes in order,
skipping disabled routes; insert the composed handler into the dispatch
map keyed by route id (later inserts overwrite earlier ones).  Note that
the Go code checks only `route.Status()` — it never consults
`route.Experimental()` or `config.Experimental()`, so `cfg.experimental`
is unused here, exactly as in the source. -/
def registerRoutes (cfg : Config) (gmw : List MwEntry) (routers : List Router) :
    Int → Option Handler :=
  routers.foldl
    (fun tbl rt =>
      if rt.status then
        rt.routes.foldl
          (fun tbl r =>
            if r.status then
              fun k => if k = r.id then some (composeHandler cfg gmw rt.middleware r) else tbl k
            else tbl)
          tbl
      else tbl)
    (fun _ => none)

/-- Observable events of the per-connection read–decode–dispatch loop in
`Server.handleConnection` (bmux.go lines 243–281): a framing failure (loop
breaks), a header decode failure (warn + continue), a dispatch miss
(warn + continue), or a dispatched handler invocation. -/
inductive LoopEvent where
  | framingError
  | headerError
  | dispatchMiss (id : Int)
  | dispatched (id : Int)
deriving Repr, DecidableEq

/-- Fuelled embedding of the `for` loop in `Server.handleConnection`:
parse an envelope (on failure, log and `break`); parse the header into the
schema, obtaining the message id (on failure, log and `continue`); look up
the dispatch table (miss: log and `continue`; hit: invoke the handler and
`continue`).  `parseHeaderFn` stands for `parsing.ParseHeader` applied to
the application-supplied header schema. -/
def handleLoop (parseHeaderFn : List Nat → Except String Int)
    (handlers : Int → Option Handler) : Nat → List Nat → List LoopEvent
  | 0, _ => []
  | fuel + 1, s =>
    match ParseEnvelope s with
    | none => [LoopEvent.framingError]
    | some (env, rest) =>
      match parseHeaderFn env.RawHead with
      | Except.error _ => LoopEvent.headerError :: handleLoop parseHeaderFn handlers fuel rest
      | Except.ok msgID =>
        match handlers msgID with
        | none => LoopEvent.dispatchMiss msgID :: handleLoop parseHeaderFn handlers fuel rest
        | some _ => LoopEvent.dispatched msgID :: handleLoop parseHeaderFn handlers fuel rest

/-- `handleConnection` with enough fuel to consume the whole stream: every
successfully parsed envelope consumes at least its 3-byte prefix, so
`s.length + 1` steps always suffice. -/
def handleConnection (parseHeaderFn : List Nat → Except String Int)
    (handlers : Int → Option Handler) (s : List Nat) : List LoopEvent :=
  handleLoop parseHeaderFn handlers (s.length + 1) s

/-- A middleware that appends its name to the event log before calling the
next link, used to observe composition order. -/
def appendMw (n : String) : Handler → Handler :=
  fun next log => next (log ++ [n])

/-- A base handler that appends its name to the event log. -/
def baseHandler (n : String) : Handler :=
  fun log => log ++ [n]

/-- The inner fold of `registerRoutes` over a router's routes never creates
an entry for an id all of whose routes are disabled. -/
theorem routesFold_none (cfg : Config) (gmw : List MwEntry)
    (rmw : List (Handler → Handler)) (k : Int) :
    ∀ (rs : List Route) (t : Int → Option Handler), t k = none →
    (∀ r ∈ rs, r.id = k → r.status = false) →
    (rs.foldl (fun tbl r =>
        if r.status then
          (fun j => if j = r.id then some (composeHandler cfg gmw rmw r) else tbl j)
        else tbl) t) k = none := by
  intro rs
  induction rs with
  | nil => intro t ht _; exact ht
  | cons r rs ih =>
    intro t ht hall
    simp only [List.foldl_cons]
    apply ih
    · by_cases hrs : r.status = true
      · rw [if_pos hrs]
        have hne : k ≠ r.id := by
          intro hc
          have hf := hall r (List.mem_cons_self r rs) hc.symm
          rw [hrs] at hf
          exact Bool.noConfusion hf
        show (if k = r.id then some (composeHandler cfg gmw rmw r) else t k) = none
        rw [if_neg hne]
        exact ht
      · rw [if_neg hrs]; exact ht
    · intro r2 hr2 hid2
      exact hall r2 (List.mem_cons_of_mem r hr2) hid2

/-- The dispatch table compiled by `registerRoutes` has no entry for an id
whose every route (in any router) is disabled. -/
theorem registerRoutes_none (cfg : Config) (gmw : List MwEntry) (k : Int) :
    ∀ (routers : List Router),
    (∀ rt ∈ routers, ∀ r ∈ rt.routes, r.id = k → r.status = false) →
    registerRoutes cfg gmw routers k = none := by
  have main : ∀ (rts : List Router) (t : Int → Option Handler), t k = none →
      (∀ rt ∈ rts, ∀ r ∈ rt.routes, r.id = k → r.status = false) →
      (rts.foldl (fun tbl rt =>
        if rt.status then
          rt.routes.foldl (fun tbl r =>
            if r.status then
              (fun j => if j = r.id then some (composeHandler cfg gmw rt.middleware r) else tbl j)
            else tbl) tbl
        else tbl) t) k = none := by
    intro rts
    induction rts with
    | nil => intro t ht _; exact ht
    | cons rt rts ih =>
      intro t ht hall
      simp only [List.foldl_cons]
      apply ih
      · by_cases hs : rt.status = true
        · rw [if_pos hs]
          exact routesFold_none cfg gmw rt.middleware k rt.routes t ht
            (hall rt (List.mem_cons_self rt rts))
        · rw [if_neg hs]; exact ht
      · intro rt2 hrt2 r hr hid2
        exact hall rt2 (List.mem_cons_of_mem rt hrt2) r hr hid2
  intro routers hk
  exact main routers (fun _ => none) rfl hk

/-- One loop iteration of `handleConnection` on a well-formed envelope
whose header decodes to an id with no table entry: a dispatch miss is
logged and the loop continues on the remaining stream. -/
theorem miss_continues (pf : List Nat → Except String Int)
    (tbl : Int → Option Handler) (head body rest : List Nat) (fuel : Nat) (k : Int)
    (hh : head.length ≤ 255) (hb : body.length ≤ 65535)
    (he : pf head = Except.ok k) (hm : tbl k = none) :
    handleLoop pf tbl (fuel + 1) (packetBytes head body ++ rest) =
      LoopEvent.dispatchMiss k :: handleLoop pf tbl fuel rest := by
  simp only [handleLoop, ParseEnvelope_packetBytes head body rest hh hb, he, hm]

/-- C2 (failing input).  `registerRoutes` never consults the experimental
flag: with `config.Experimental() = false`, an enabled experimental route
in an enabled router is still entered into the dispatch table, and a
message carrying its id is dispatched to its handler rather than producing
a dispatch miss — contradicting both the spec and the config field's own
documentation (`Experimental … Enable experimental routes`). -/
theorem experimental_route_registered_without_flag :
    (registerRoutes ⟨false, false⟩ []
      [⟨true, [⟨42, "exp", true, true, baseHandler "base", []⟩], []⟩] 42).isSome = true ∧
    handleConnection (fun _ => Except.ok 42)
      (registerRoutes ⟨false, false⟩ []
        [⟨true, [⟨42, "exp", true, true, baseHandler "base", []⟩], []⟩])
      (packetBytes [1] []) =
      [LoopEvent.dispatched 42, LoopEvent.framingError] := by
  constructor
  · rfl
  · rfl

/-- C3 (counterexample).  A stream of two well-formed envelopes where the
first header fails to decode (unsupported field kind): the loop logs the
header error and then processes and dispatches the second envelope —
refuting the claim that no further envelopes are processed on that
connection after a decode error. -/
theorem header_error_counterexample :
    handleConnection
      (fun h => if h = [1] then Except.error "unsupported field kind" else Except.ok 5)
      (fun k => if k = 5 then some (baseHandler "base") else none)
      (packetBytes [1] [] ++ packetBytes [2] []) =
      [LoopEvent.headerError, LoopEvent.dispatched 5, LoopEvent.framingError] := by
  rfl

/-- C3 (amended).  When header decoding of a successfully framed envelope
fails, `handleConnection` logs the failure and continues the read–decode–
dispatch loop on the remaining stream (Go `continue`); only framing errors
terminate the loop. -/
theorem header_error_continues (pf : List Nat → Except String Int)
    (tbl : Int → Option Handler) (head body rest : List Nat) (fuel : Nat) (e : String)
    (hh : head.length ≤ 255) (hb : body.length ≤ 65535)
    (he : pf head = Except.error e) :
    handleLoop pf tbl (fuel + 1) (packetBytes head body ++ rest) =
      LoopEvent.headerError :: handleLoop pf tbl fuel rest := by
  simp only [handleLoop, ParseEnvelope_packetBytes head body rest hh hb, he]

/-- Witness for the amended C3 at a concrete failing header and an empty
remaining stream. -/
theorem header_error_continues_witness :
    handleLoop (fun _ => Except.error "no resolvable message-id field")
      (fun _ => none) 1 (packetBytes [1] [] ++ []) =
      LoopEvent.headerError ::
        handleLoop (fun _ => Except.error "no resolvable message-id field")
          (fun _ => none) 0 [] := by
  exact header_error_continues (fun _ => Except.error "no resolvable message-id field")
    (fun _ => none) [1] [] [] 0 "no resolvable message-id field"
    (by decide) (by decide) rfl

/-- C4.  Middleware composition order: with enabled global middleware `G1`
then `G2`, router-level middleware `R1`, and route-level middleware `P1`,
each appending its name to the event log, the handler compiled by
`registerRoutes` produces the log `[G1, G2, R1, P1, base]` on one
dispatched message: global middleware outermost in registration order,
router middleware next, route middleware innermost above the base. -/
theorem middleware_order (g1 g2 r1 p1 : String) :
    Option.map (fun h => h [])
      (registerRoutes ⟨false, false⟩
        [⟨appendMw g1, "G1", true, false⟩, ⟨appendMw g2, "G2", true, false⟩]
        [⟨true, [⟨7, "route", true, false, baseHandler "base", [appendMw p1]⟩],
          [appendMw r1]⟩]
        7)
      = some [g1, g2, r1, p1, "base"] := by
  simp [registerRoutes, composeHandler, appendMw, baseHandler]

/-- C5.  Duplicate route ids: when two enabled routes in two enabled
routers share an id, the compiled dispatch table maps that id to the
composed handler of the route registered later in iteration order; the
earlier entry is silently overwritten and no error is raised. -/
theorem duplicate_later_wins (cfg : Config) (gmw : List MwEntry)
    (ra rb : Route) (mwa mwb : List (Handler → Handler))
    (ha : ra.status = true) (hb : rb.status = true) (_hid : ra.id = rb.id) :
    registerRoutes cfg gmw [⟨true, [ra], mwa⟩, ⟨true, [rb], mwb⟩] rb.id
      = some (composeHandler cfg gmw mwb rb) := by
  simp [registerRoutes, ha, hb]

/-- Witness for C5: two enabled routes with id 7; the table entry is the
later route's composed handler. -/
theorem duplicate_later_wins_witness :
    registerRoutes ⟨false, false⟩ []
      [⟨true, [⟨7, "a", true, false, baseHandler "A", []⟩], []⟩,
       ⟨true, [⟨7, "b", true, false, baseHandler "B", []⟩], []⟩]
      (7 : Int)
      = some (composeHandler ⟨false, false⟩ [] []
          ⟨7, "b", true, false, baseHandler "B", []⟩) := by
  exact duplicate_later_wins ⟨false, false⟩ []
    ⟨7, "a", true, false, baseHandler "A", []⟩
    ⟨7, "b", true, false, baseHandler "B", []⟩
    [] [] rfl rfl rfl

/-- C7.  Dispatch miss is non-fatal: a disabled route's id never enters the
compiled dispatch table, and a well-formed message carrying an id with no
table entry produces a dispatch-miss log entry — no handler is invoked, no
error is propagated, and the loop continues on the remaining stream. -/
theorem dispatch_miss_nonfatal (cfg : Config) (gmw : List MwEntry)
    (routers : List Router) (k : Int) (pf : List Nat → Except String Int)
    (head body rest : List Nat) (fuel : Nat)
    (hk : ∀ rt ∈ routers, ∀ r ∈ rt.routes, r.id = k → r.status = false)
    (hh : head.length ≤ 255) (hb : body.length ≤ 65535)
    (hpf : pf head = Except.ok k) :
    registerRoutes cfg gmw routers k = none ∧
    handleLoop pf (registerRoutes cfg gmw routers) (fuel + 1)
        (packetBytes head body ++ rest) =
      LoopEvent.dispatchMiss k ::
        handleLoop pf (registerRoutes cfg gmw routers) fuel rest := by
  have hnone := registerRoutes_none cfg gmw k routers hk
  exact ⟨hnone,
    miss_continues pf (registerRoutes cfg gmw routers) head body rest fuel k hh hb hpf hnone⟩

/-- Witness for C7: a single disabled route with id 3; its id misses and
the loop continues. -/
theorem dispatch_miss_nonfatal_witness :
    registerRoutes ⟨true, false⟩ []
      [⟨true, [⟨3, "off", false, false, baseHandler "b", []⟩], []⟩] 3 = none ∧
    handleLoop (fun _ => Except.ok 3)
      (registerRoutes ⟨true, false⟩ []
        [⟨true, [⟨3, "off", false, false, baseHandler "b", []⟩], []⟩])
      (0 + 1) (packetBytes [1] [] ++ []) =
      LoopEvent.dispatchMiss 3 ::
        handleLoop (fun _ => Except.ok 3)
          (registerRoutes ⟨true, false⟩ []
            [⟨true, [⟨3, "off", false, false, baseHandler "b", []⟩], []⟩])
          0 [] := by
  exact dispatch_miss_nonfatal ⟨true, false⟩ []
    [⟨true, [⟨3, "off", false, false, baseHandler "b", []⟩], []⟩] 3
    (fun _ => Except.ok 3) [1] [] [] 0
    (by
      intro rt hrt r hr hid2
      simp only [List.mem_singleton] at hrt
      subst hrt
      simp only [List.mem_singleton] at hr
      subst hr
      rfl)
    (by decide) (by decide) rfl

/-- C10.  `WritePacket` with nil header and nil body succeeds and writes
exactly the three prefix bytes `0x00 0x00 0x00`, a valid empty frame that
`ParseEnvelope` accepts as `headLen = 0`, `bodyLen = 0`. -/
theorem writePacket_nil_nil :
    WritePacket [] none none = ([0, 0, 0], none) ∧
    ParseEnvelope [0, 0, 0] = some (⟨0, 0, [], []⟩, []) := by
  constructor
  · rfl
  · rfl

/-- The field-name normalization of `ParseHeader` (parse.go): lowercase the
name and remove every underscore and dash (`strings.ToLower` followed by
`strings.ReplaceAll` with the empty string), then compare with `msgid`. -/
def isMsgIDField (name : String) : Bool :=
  (name.toList.map Char.toLower).filter (fun c => c ≠ '_' ∧ c ≠ '-') = "msgid".toList

/-- Two's-complement reading of a residue `r < 2 ^ 32` as a signed 32-bit
value. -/
def toSigned32 (r : Nat) : Int :=
  if r < 2 ^ 31 then (r : Int) else (r : Int) - 2 ^ 32

/-- Go `int32(x)` applied to the `uint64` returned by `reflect.Value.Uint`:
keep the low 32 bits and reinterpret them as signed. -/
def int32OfUint (v : Nat) : Int := toSigned32 (v % 2 ^ 32)

/-- Go `int32(x)` applied to the `int64` returned by `reflect.Value.Int`:
keep the low 32 bits and reinterpret them as signed. -/
def int32OfInt (v : Int) : Int := toSigned32 (v.emod (2 ^ 32)).toNat

/-- The `reflect.Kind` values distinguished by the `Msgid` extraction
switch in `ParseHeader` (parse.go): `Int32`/`Int` (read via `Int()`),
`Uint32`/`Uint`/`Uint64` (read via `Uint()`), or anything else. -/
inductive GoKind where
  | int32K
  | intK
  | uint32K
  | uintK
  | uint64K
  | otherK
deriving Repr, DecidableEq

/-- A struct field as seen by the reflection scan: its name, kind, and the
values `reflect.Value.Int` / `reflect.Value.Uint` would return for it. -/
structure GoField where
  name : String
  kind : GoKind
  ival : Int
  uval : Nat

/-- Embedding of the message-id extraction loop of `ParseHeader`
(parse.go): scan the decoded header's fields in declaration order for the
first whose name normalizes to `msgid`; return `int32(field.Int())` for
signed kinds and `int32(field.Uint())` for unsigned kinds; fail on a
non-integer kind or when no such field exists. -/
def extractMsgId : List GoField → Except String Int
  | [] => Except.error "no recognizable Msgid field found in protobuf header"
  | f :: fs =>
    if isMsgIDField f.name then
      match f.kind with
      | GoKind.int32K | GoKind.intK => Except.ok (int32OfInt f.ival)
      | GoKind.uint32K | GoKind.uintK | GoKind.uint64K => Except.ok (int32OfUint f.uval)
      | GoKind.otherK => Except.error "unsupported Msgid field kind"
    else extractMsgId fs

/-- C8 (counterexample).  A decoded header whose `Msgid` field is a
`uint64` holding `2 ^ 31` — a value outside the signed 32-bit range — is
accepted by `ParseHeader` with the silently wrapped id `-2 ^ 31`; no error
is returned, refuting the claim that narrowing does not silently
overflow. -/
theorem msgid_narrowing_counterexample :
    extractMsgId [⟨"Msgid", GoKind.uint64K, 0, 2147483648⟩] =
      Except.ok (-2147483648) := by
  rfl

/-- C8 (amended).  `ParseHeader` narrows a wider unsigned message-id field
by two's-complement truncation: for every `uint64` value it returns
`ok` with the low 32 bits reinterpreted as signed — values at or above
`2 ^ 31` (mod `2 ^ 32`) come back negative and no error is ever raised
for out-of-range values. -/
theorem msgid_narrowing_wraps (name : String) (v : Nat) (fs : List GoField)
    (hname : isMsgIDField name = true) :
    extractMsgId (⟨name, GoKind.uint64K, 0, v⟩ :: fs) = Except.ok (int32OfUint v) ∧
    (2 ^ 31 ≤ v % 2 ^ 32 → int32OfUint v < 0) := by
  constructor
  · simp only [extractMsgId, hname, if_pos]
  · intro hv
    have hlt : v % 2 ^ 32 < 2 ^ 32 := Nat.mod_lt v (by norm_num)
    unfold int32OfUint toSigned32
    rw [if_neg (by omega)]
    omega

/-- Witness for the amended C8 at the field name `Msgid` and the
out-of-range value `2 ^ 31 + 5`. -/
theorem msgid_narrowing_wraps_witness :
    extractMsgId [⟨"Msgid", GoKind.uint64K, 0, 2147483653⟩] =
      Except.ok (int32OfUint 2147483653) ∧
    (2 ^ 31 ≤ 2147483653 % 2 ^ 32 → int32OfUint 2147483653 < 0) := by
  exact msgid_narrowing_wraps "Msgid" 2147483653 [] (by decide)

/-- Model A admission (bmux.go `acceptLoop`): the counting semaphore
`sem := make(chan struct{}, config.MaxConnections())`.  `acquire` (send on
`sem`) can fire only while fewer than `N` slots are held — a goroutine
attempting it at `N` blocks; `release` (receive from `sem`) frees a slot. -/
inductive StepA (N : Nat) : Nat → Nat → Prop where
  | acquire {k : Nat} : k < N → StepA N k (k + 1)
  | release {k : Nat} : 0 < k → StepA N k (k - 1)

/-- States of the Model A semaphore reachable from the empty state by
interleaved acquire/release steps. -/
inductive ReachA (N : Nat) : Nat → Prop where
  | init : ReachA N 0
  | step {a b : Nat} : ReachA N a → StepA N a b → ReachA N b

/-- Embedding of `EngineWrapper.OnOpen` (pkg/engine): if the active count
has reached the maximum, return the count unchanged and `gnet.Close`
(`true`); otherwise increment the count and admit (`false`). -/
def OnOpen (maxConns active : Int) : Int × Bool :=
  if maxConns ≤ active then (active, true) else (active + 1, false)

/-- Embedding of `EngineWrapper.OnClose` (pkg/engine): decrement the
active-connection counter. -/
def OnClose (active : Int) : Int := active - 1

/-- Reachable states of the Model B reactor: the `ActiveConnections`
counter paired with the (ghost) number of admitted, not-yet-closed
connections.  Opens go through `OnOpen` (admitted or rejected according to
its returned action); a close of an admitted connection goes through
`OnClose`. -/
inductive ReachB (N : Int) : Int → Nat → Prop where
  | init : ReachB N 0 0
  | openAdmit {c : Int} {a : Nat} : ReachB N c a → (OnOpen N c).2 = false →
      ReachB N (OnOpen N c).1 (a + 1)
  | openReject {c : Int} {a : Nat} : ReachB N c a → (OnOpen N c).2 = true →
      ReachB N (OnOpen N c).1 a
  | close {c : Int} {a : Nat} : ReachB N c a → 0 < a → ReachB N (OnClose c) (a - 1)

/-- C9.  Connection cap invariant with `MaxConnections = N`.  Model A
(blocking): every reachable semaphore state holds at most `N` slots, and
an acquire step is possible exactly when fewer than `N` are held — the
`(N+1)`-th accept blocks until a slot frees.  Model B (reactor): in every
reachable state the `ActiveConnections` counter equals the number of
admitted, not-yet-closed connections and never exceeds `N`, and `OnOpen`
at a full counter closes the connection immediately without incrementing. -/
theorem connection_cap (N : Nat) :
    (∀ k, ReachA N k → k ≤ N) ∧
    (∀ k, StepA N k (k + 1) ↔ k < N) ∧
    (∀ c a, ReachB (N : Int) c a → c = (a : Int) ∧ c ≤ (N : Int)) ∧
    ((OnOpen (N : Int) (N : Int)).2 = true ∧ (OnOpen (N : Int) (N : Int)).1 = N) := by
  refine ⟨?_, ?_, ?_, ?_⟩
  · intro k hk
    induction hk with
    | init => omega
    | step ha hs ih =>
      cases hs with
      | acquire h => omega
      | release h => omega
  · intro k
    constructor
    · intro h
      have aux : ∀ m, StepA N k m → m = k + 1 → k < N := by
        intro m hm
        cases hm with
        | acquire h2 => exact fun _ => h2
        | release h2 => intro he; omega
      exact aux (k + 1) h rfl
    · exact fun h => StepA.acquire h
  · intro c a hr
    induction hr with
    | init => constructor <;> simp
    | @openAdmit c2 a2 hr hop ih =>
      by_cases h : (N : Int) ≤ c2
      · simp [OnOpen, h] at hop
      · simp only [OnOpen, if_neg h] at hop ⊢
        push_cast
        omega
    | @openReject c2 a2 hr hop ih =>
      by_cases h : (N : Int) ≤ c2
      · simp only [OnOpen, if_pos h] at hop ⊢
        exact ih
      · simp [OnOpen, h] at hop
    | close hr hpos ih =>
      unfold OnClose
      push_cast [hpos]
      omega
  · unfold OnOpen
    rw [if_pos le_rfl]
    exact ⟨rfl, rfl⟩

/-- Witness for C9 at `N = 1`: the state with one held slot (one admitted
connection) is reachable and within the cap, the acquire step from the
empty state is enabled, and the reactor counter agrees with the admitted
count. -/
theorem connection_cap_witness :
    (1 : Nat) ≤ 1 ∧ (0 : Nat) < 1 ∧
    ((1 : Int) = ((1 : Nat) : Int) ∧ (1 : Int) ≤ ((1 : Nat) : Int)) := by
  have h := connection_cap 1
  refine ⟨h.1 1 (ReachA.step ReachA.init (StepA.acquire (by decide))), ?_, ?_⟩
  · exact (h.2.1 0).1 (StepA.acquire (by decide))
  · exact h.2.2.1 1 1 (ReachB.openAdmit ReachB.init (by decide))

end Bmux
